import Mathlib

/-!
Verification of the boom-prototype meeting backend (Go, `backend/` package).

The embedding below translates the persistence layer (`db.go`, tables of
`schema.sql`), the transcript relay hub and HTTP handlers (`main.go`), the
login path (`auth.go`) and the e-mail workflow trigger (`email.go`) into
pure Lean functions over an explicit database / hub state.

Modelling conventions:
* sqlite tables are lists of row structures; `AUTOINCREMENT` ids are tracked
  by explicit `next…Id` counters, and the per-connection `last_insert_rowid()`
  (what Go's `result.LastInsertId()` reads) is a field of the state that is
  updated only by statements that actually insert a row — an upsert that takes
  the `DO UPDATE` branch leaves it unchanged, exactly as in sqlite.
* `CURRENT_TIMESTAMP` is modelled by a `clock : Nat` field that ticks at every
  statement that stamps a row, so stamps are strictly increasing.
* external collaborators (LiveKit room service, AI service, n8n webhook,
  bcrypt) enter as explicit parameters of the handler functions: an
  `Option`/`Bool` argument stands for the outcome of the network call, and a
  function argument stands for the bcrypt comparison.
* row timestamp columns other than `meeting_notes.generated_at` are never read
  by any code under verification and are omitted from the row structures.
-/

namespace Boom

/-! ### Data model (schema.sql / db.go structs) -/

/-- Row of the `meetings` table: `id, room_name (UNIQUE), room_sid`.
Also used for the Go `Meeting` struct value returned by the store functions. -/
structure MeetingRow where
  id : Int
  room_name : String
  room_sid : String
  deriving DecidableEq

/-- Row of the `meeting_notes` table (and the Go `MeetingNotes` struct). -/
structure NotesRow where
  id : Int
  meeting_id : Int
  notes_markdown : String
  generated_at : Nat
  model_used : String
  input_tokens : Int
  output_tokens : Int
  deriving DecidableEq

/-- Row of the `email_subscriptions` table, `UNIQUE(meeting_id, email)`. -/
structure SubRow where
  id : Int
  meeting_id : Int
  participant_name : String
  email : String
  deriving DecidableEq

/-- Row of the `scheduled_meetings` table (fields read by the handlers). -/
structure SchedRow where
  id : Int
  room_name : String
  host_user_id : Int
  client_name : String
  client_email : String
  scheduled_at : Nat
  status : String
  deriving DecidableEq

/-- Row of the `users` table (auth.go `User`). -/
structure UserRow where
  id : Int
  email : String
  password_hash : String
  name : String
  deriving DecidableEq

/-- The sqlite database reached through the global `db` handle, plus the
connection-level `last_insert_rowid()` register and the timestamp source. -/
structure DB where
  meetings : List MeetingRow
  notes : List NotesRow
  subs : List SubRow
  scheduled : List SchedRow
  users : List UserRow
  nextMeetingId : Int
  nextNotesId : Int
  nextSubId : Int
  lastInsertId : Int
  clock : Nat
  deriving DecidableEq

/-- An empty database, as produced by `initDB` before any insert. -/
def emptyDB : DB :=
  { meetings := [], notes := [], subs := [], scheduled := [], users := []
    nextMeetingId := 1, nextNotesId := 1, nextSubId := 1, lastInsertId := 0, clock := 0 }

/-! ### db.go: meetings -/

/-- `GetMeetingByRoom` (db.go): `SELECT … FROM meetings WHERE room_name = ?`.
`QueryRow` errors with `sql.ErrNoRows` when no row matches; that is `none`. -/
def GetMeetingByRoom (db : DB) (roomName : String) : Option MeetingRow :=
  db.meetings.find? (fun m => m.room_name == roomName)

/-- `CreateMeeting` (db.go):
`INSERT INTO meetings (room_name, room_sid) VALUES (?, ?)
 ON CONFLICT(room_name) DO UPDATE SET room_sid = ?`,
then returns a `Meeting` whose `ID` is `result.LastInsertId()`.  On the
conflict branch no row is inserted, so `last_insert_rowid()` keeps its
previous value and that stale value is what ends up in the returned struct. -/
def CreateMeeting (db : DB) (roomName roomSID : String) : MeetingRow × DB :=
  if db.meetings.any (fun m => m.room_name == roomName) then
    let db' : DB := { db with
      meetings := db.meetings.map (fun m =>
        if m.room_name == roomName then { m with room_sid := roomSID } else m) }
    (⟨db'.lastInsertId, roomName, roomSID⟩, db')
  else
    let row : MeetingRow := ⟨db.nextMeetingId, roomName, roomSID⟩
    (⟨db.nextMeetingId, roomName, roomSID⟩,
      { db with
        meetings := db.meetings ++ [row]
        nextMeetingId := db.nextMeetingId + 1
        lastInsertId := db.nextMeetingId })

/-- The get-or-create pattern used by `startTranscriptionHandler`,
`SaveNotes` and `CreateEmailSubscription`:
`meeting, err := GetMeetingByRoom(room); if err != nil { meeting, err = CreateMeeting(room, "") }`. -/
def getOrCreateMeeting (db : DB) (roomName : String) : MeetingRow × DB :=
  match GetMeetingByRoom db roomName with
  | some m => (m, db)
  | none => CreateMeeting db roomName ""

/-! ### Helper lemmas about list lookups -/

theorem find?_eq_none_of_any_eq_false {α : Type} (p : α → Bool) (l : List α)
    (h : l.any p = false) : l.find? p = none := by
  induction l with
  | nil => rfl
  | cons x xs ih =>
    simp only [List.any_cons, Bool.or_eq_false_iff] at h
    simp [List.find?, h.1, ih h.2]

theorem any_eq_false_of_find?_eq_none {α : Type} (p : α → Bool) (l : List α)
    (h : l.find? p = none) : l.any p = false := by
  induction l with
  | nil => rfl
  | cons x xs ih =>
    by_cases hx : p x = true
    · simp [List.find?, hx] at h
    · simp only [Bool.not_eq_true] at hx
      simp only [List.find?, hx] at h
      simp [List.any_cons, hx, ih h]

theorem find?_append_singleton {α : Type} (p : α → Bool) (l : List α) (x : α)
    (h : l.find? p = none) (hx : p x = true) : (l ++ [x]).find? p = some x := by
  induction l with
  | nil => simp [List.find?, hx]
  | cons y ys ih =>
    by_cases hy : p y = true
    · simp [List.find?, hy] at h
    · simp only [Bool.not_eq_true] at hy
      simp only [List.find?, hy] at h
      simp [List.find?, hy, ih h]

/-- After `CreateMeeting`, some meetings row for the room exists. -/
theorem createMeeting_any (db : DB) (roomName roomSID : String) :
    ((CreateMeeting db roomName roomSID).2).meetings.any
      (fun m => m.room_name == roomName) = true := by
  unfold CreateMeeting
  by_cases h : db.meetings.any (fun m => m.room_name == roomName) = true
  · simp only [h, if_true]
    rw [List.any_map]
    rw [List.any_eq_true] at h ⊢
    obtain ⟨m, hm, hroom⟩ := h
    refine ⟨m, hm, ?_⟩
    simp only [Function.comp]
    simp [hroom]
  · simp only [h, if_false]
    simp [List.any_append]

/-- After `getOrCreateMeeting`, looking the room up again finds exactly the
returned meeting. -/
theorem getOrCreate_found (db : DB) (roomName : String) :
    GetMeetingByRoom (getOrCreateMeeting db roomName).2 roomName =
      some (getOrCreateMeeting db roomName).1 := by
  unfold getOrCreateMeeting
  cases hfind : GetMeetingByRoom db roomName with
  | some m => simpa [GetMeetingByRoom] using hfind
  | none =>
    simp only []
    unfold CreateMeeting
    have hany : db.meetings.any (fun m => m.room_name == roomName) = false :=
      any_eq_false_of_find?_eq_none _ _ hfind
    simp only [hany, Bool.false_eq_true, if_false]
    unfold GetMeetingByRoom at hfind ⊢
    exact find?_append_singleton _ _ _ hfind (by simp)

/-- Claim C1, theorem. For every room name, calling the get-or-create meeting
operation twice returns the same internal meeting id, and the second call
creates no second meetings row.  Both paths are covered: the handler pattern
(`GetMeetingByRoom` then `CreateMeeting` on miss), where the second call is a
pure read that returns the stored row and leaves the database untouched, and
the direct repeated `CreateMeeting` upsert, where the second call takes the
`DO UPDATE` branch, adds no row, and reports the same `LastInsertId` as the
first call. -/
theorem C1_getOrCreate_idempotent (db : DB) (roomName roomSID : String) :
    ((getOrCreateMeeting (getOrCreateMeeting db roomName).2 roomName).1.id =
        (getOrCreateMeeting db roomName).1.id ∧
      (getOrCreateMeeting (getOrCreateMeeting db roomName).2 roomName).2 =
        (getOrCreateMeeting db roomName).2) ∧
    ((CreateMeeting (CreateMeeting db roomName roomSID).2 roomName roomSID).1.id =
        (CreateMeeting db roomName roomSID).1.id ∧
      ((CreateMeeting (CreateMeeting db roomName roomSID).2 roomName roomSID).2).meetings.length =
        ((CreateMeeting db roomName roomSID).2).meetings.length) := by
  constructor
  · have hfound := getOrCreate_found db roomName
    constructor
    · conv_lhs => rw [getOrCreateMeeting, hfound]
    · conv_lhs => rw [getOrCreateMeeting, hfound]
  · have hany := createMeeting_any db roomName roomSID
    constructor
    · conv_lhs => rw [CreateMeeting]
      rw [if_pos hany]
      unfold CreateMeeting
      by_cases h : db.meetings.any (fun m => m.room_name == roomName) = true
      · simp [h]
      · simp [h]
    · conv_lhs => rw [CreateMeeting]
      rw [if_pos hany]
      simp

/-! ### db.go: meeting notes -/

/-- `SaveNotes` (db.go): get-or-create the meeting, then
`INSERT INTO meeting_notes (meeting_id, notes_markdown, model_used,
input_tokens, output_tokens) VALUES (?, ?, ?, ?, ?)`; the returned struct
carries `LastInsertId` and the inserted values.  The inserted row is stamped
with `CURRENT_TIMESTAMP` (the model clock), which then ticks. -/
def SaveNotes (db : DB) (roomName markdown model : String)
    (inputTokens outputTokens : Int) : NotesRow × DB :=
  let p := getOrCreateMeeting db roomName
  let row : NotesRow :=
    ⟨p.2.nextNotesId, p.1.id, markdown, p.2.clock, model, inputTokens, outputTokens⟩
  (row,
    { p.2 with
      notes := p.2.notes ++ [row]
      nextNotesId := p.2.nextNotesId + 1
      lastInsertId := p.2.nextNotesId
      clock := p.2.clock + 1 })

/-- The `ORDER BY generated_at DESC LIMIT 1` read: the row with the greatest
timestamp among the given rows (scans the table, keeping the later-stamped
row, preferring the earlier row on a tie). -/
def latestByGeneratedAt (rows : List NotesRow) : Option NotesRow :=
  rows.foldl (fun best n =>
    match best with
    | none => some n
    | some b => if n.generated_at > b.generated_at then some n else some b) none

/-- `GetNotesByRoom` (db.go): resolve the meeting, then
`SELECT … FROM meeting_notes WHERE meeting_id = ? ORDER BY generated_at DESC
LIMIT 1`; `none` when the meeting or the note row is missing. -/
def GetNotesByRoom (db : DB) (roomName : String) : Option NotesRow :=
  match GetMeetingByRoom db roomName with
  | none => none
  | some meeting =>
    latestByGeneratedAt (db.notes.filter (fun n => n.meeting_id == meeting.id))

/-- All stored note stamps predate the clock — true of every database the
program can build, since every insert stamps with the then-current clock and
ticks it. -/
def NotesClockInv (db : DB) : Prop :=
  ∀ n ∈ db.notes, n.generated_at < db.clock

theorem latestByGeneratedAt_append_max (rows : List NotesRow) (x : NotesRow)
    (acc : Option NotesRow)
    (hrows : ∀ y ∈ rows, y.generated_at < x.generated_at)
    (hacc : ∀ b, acc = some b → b.generated_at < x.generated_at) :
    (rows ++ [x]).foldl (fun best n =>
      match best with
      | none => some n
      | some b => if n.generated_at > b.generated_at then some n else some b) acc = some x := by
  induction rows generalizing acc with
  | nil =>
    cases acc with
    | none => rfl
    | some b =>
      have hb := hacc b rfl
      simp only [List.nil_append, List.foldl_cons, List.foldl_nil]
      rw [if_pos hb]
  | cons y ys ih =>
    simp only [List.cons_append, List.foldl_cons]
    apply ih
    · exact fun z hz => hrows z (List.mem_cons_of_mem _ hz)
    · intro b hb
      cases acc with
      | none =>
        simp only [Option.some.injEq] at hb
        exact hb ▸ hrows y (List.mem_cons_self _ _)
      | some a =>
        by_cases hya : y.generated_at > a.generated_at
        · simp only [hya, if_true, Option.some.injEq] at hb
          exact hb ▸ hrows y (List.mem_cons_self _ _)
        · simp only [hya, if_false, Option.some.injEq] at hb
          exact hb ▸ hacc a rfl

/-- `getOrCreateMeeting` never touches the notes table or the clock. -/
theorem getOrCreate_notes (db : DB) (roomName : String) :
    (getOrCreateMeeting db roomName).2.notes = db.notes ∧
      (getOrCreateMeeting db roomName).2.clock = db.clock := by
  unfold getOrCreateMeeting
  cases GetMeetingByRoom db roomName with
  | some m => exact ⟨rfl, rfl⟩
  | none =>
    unfold CreateMeeting
    by_cases h : db.meetings.any (fun m => m.room_name == roomName) = true
    · simp [h]
    · simp [h]

/-- Claim C3, theorem. Round-trip: after `SaveNotes` succeeds, reading the
notes for that room with `GetNotesByRoom` returns exactly the row the save
produced — byte-identical markdown, the same model identifier and the same
input/output token counts — rather than a miss or an older row.  Holds for
every database whose stored note stamps predate the current clock (an
invariant of every reachable database). -/
theorem C3_saveNotes_roundtrip (db : DB) (roomName markdown model : String)
    (inputTokens outputTokens : Int) (hinv : NotesClockInv db) :
    GetNotesByRoom (SaveNotes db roomName markdown model inputTokens outputTokens).2 roomName =
        some (SaveNotes db roomName markdown model inputTokens outputTokens).1 ∧
      (SaveNotes db roomName markdown model inputTokens outputTokens).1.notes_markdown =
        markdown ∧
      (SaveNotes db roomName markdown model inputTokens outputTokens).1.model_used = model ∧
      (SaveNotes db roomName markdown model inputTokens outputTokens).1.input_tokens =
        inputTokens ∧
      (SaveNotes db roomName markdown model inputTokens outputTokens).1.output_tokens =
        outputTokens := by
  refine ⟨?_, rfl, rfl, rfl, rfl⟩
  have hfound := getOrCreate_found db roomName
  have hnotes := getOrCreate_notes db roomName
  unfold SaveNotes GetNotesByRoom
  simp only [GetMeetingByRoom] at hfound ⊢
  rw [hfound]
  simp only []
  rw [List.filter_append]
  simp only [List.filter_cons, List.filter_nil, beq_self_eq_true, if_true, decide_True]
  unfold latestByGeneratedAt
  apply latestByGeneratedAt_append_max
  · intro y hy
    have hy' : y ∈ db.notes := by
      rw [hnotes.1] at hy
      exact List.mem_of_mem_filter hy
    calc y.generated_at < db.clock := hinv y hy'
      _ = (getOrCreateMeeting db roomName).2.clock := hnotes.2.symm
  · intro b hb
    simp at hb

/-- Witness for C3 on the empty database. -/
theorem C3_saveNotes_roundtrip_witness :
    GetNotesByRoom (SaveNotes emptyDB "falcon-summit" "# Notes" "model-x" 11 7).2
        "falcon-summit" =
      some (SaveNotes emptyDB "falcon-summit" "# Notes" "model-x" 11 7).1 := by
  have h := C3_saveNotes_roundtrip emptyDB "falcon-summit" "# Notes" "model-x" 11 7
    (by intro n hn; simp [emptyDB] at hn)
  exact h.1

/-! ### db.go: email subscriptions -/

/-- The `WHERE meeting_id = ? AND email = ?` / `ON CONFLICT(meeting_id, email)`
row condition. -/
def subMatch (mid : Int) (email : String) (s : SubRow) : Bool :=
  s.meeting_id == mid && s.email == email

/-- `CreateEmailSubscription` (db.go): get-or-create the meeting, then
`INSERT INTO email_subscriptions (meeting_id, participant_name, email)
VALUES (?, ?, ?) ON CONFLICT(meeting_id, email) DO UPDATE SET
participant_name = ?`; the returned struct carries `LastInsertId` (stale on
the update branch, where no row is inserted) and the given values. -/
def CreateEmailSubscription (db : DB) (roomName participantName email : String) :
    SubRow × DB :=
  let p := getOrCreateMeeting db roomName
  if p.2.subs.any (subMatch p.1.id email) then
    (⟨p.2.lastInsertId, p.1.id, participantName, email⟩,
      { p.2 with
        subs := p.2.subs.map (fun s =>
          if subMatch p.1.id email s then { s with participant_name := participantName }
          else s) })
  else
    (⟨p.2.nextSubId, p.1.id, participantName, email⟩,
      { p.2 with
        subs := p.2.subs ++ [⟨p.2.nextSubId, p.1.id, participantName, email⟩]
        nextSubId := p.2.nextSubId + 1
        lastInsertId := p.2.nextSubId })

/-- `GetEmailSubscriptionsByRoom` (db.go): `none` when the meeting lookup
errors, otherwise all subscription rows of the meeting. -/
def GetEmailSubscriptionsByRoom (db : DB) (roomName : String) :
    Option (List SubRow) :=
  match GetMeetingByRoom db roomName with
  | none => none
  | some meeting => some (db.subs.filter (fun s => s.meeting_id == meeting.id))

/-- Distinctness of the `UNIQUE(meeting_id, email)` key — the constraint
sqlite enforces on the `email_subscriptions` table. -/
def SubKeyNe (a b : SubRow) : Prop :=
  ¬(a.meeting_id = b.meeting_id ∧ a.email = b.email)

theorem getOrCreate_subs (db : DB) (roomName : String) :
    (getOrCreateMeeting db roomName).2.subs = db.subs := by
  unfold getOrCreateMeeting
  cases GetMeetingByRoom db roomName with
  | some m => rfl
  | none =>
    unfold CreateMeeting
    by_cases h : db.meetings.any (fun m => m.room_name == roomName) = true
    · simp [h]
    · simp [h]

theorem GetMeetingByRoom_congr (db1 db2 : DB) (roomName : String)
    (h : db1.meetings = db2.meetings) :
    GetMeetingByRoom db1 roomName = GetMeetingByRoom db2 roomName := by
  unfold GetMeetingByRoom
  rw [h]

theorem filter_map_of_pred_preserved {α : Type} (p : α → Bool) (u : α → α)
    (l : List α) (h : ∀ s, p (u s) = p s) :
    (l.map u).filter p = (l.filter p).map u := by
  induction l with
  | nil => rfl
  | cons x xs ih =>
    by_cases hx : p x = true
    · simp [List.filter_cons, h x, hx, ih]
    · simp only [Bool.not_eq_true] at hx
      simp [List.filter_cons, h x, hx, ih]

theorem filter_length_le_one_of_pairwise {α : Type} (l : List α) (p : α → Bool)
    (R : α → α → Prop) (hpw : l.Pairwise R)
    (hcontra : ∀ a b, p a = true → p b = true → R a b → False) :
    (l.filter p).length ≤ 1 := by
  induction l with
  | nil => simp
  | cons x xs ih =>
    rw [List.pairwise_cons] at hpw
    by_cases hx : p x = true
    · have hnil : xs.filter p = [] := by
        rw [List.filter_eq_nil_iff]
        intro b hb
        intro hpb
        exact hcontra x b hx hpb (hpw.1 b hb)
      simp [List.filter_cons, hx, hnil]
    · simp only [Bool.not_eq_true] at hx
      simp only [List.filter_cons, hx, Bool.false_eq_true, if_false]
      exact ih hpw.2

theorem eq_singleton_of_filter {α : Type} (l : List α) (p : α → Bool)
    (hlen : (l.filter p).length ≤ 1) (hne : l.any p = true) :
    ∃ a, l.filter p = [a] ∧ p a = true := by
  rw [List.any_eq_true] at hne
  obtain ⟨a, ha, hpa⟩ := hne
  have hmem : a ∈ l.filter p := List.mem_filter.2 ⟨ha, hpa⟩
  cases hf : l.filter p with
  | nil => rw [hf] at hmem; simp at hmem
  | cons b bs =>
    rw [hf] at hlen
    simp only [List.length_cons] at hlen
    have hbs : bs = [] := List.length_eq_zero.1 (by omega)
    subst hbs
    refine ⟨b, rfl, ?_⟩
    have : b ∈ l.filter p := by rw [hf]; exact List.mem_cons_self _ _
    exact (List.mem_filter.1 this).2

/-- One `CreateEmailSubscription` call: afterwards the room resolves to the
same meeting the call used, the table holds exactly one row for that
(meeting, email) key carrying the display name just given, and the key
uniqueness invariant is preserved. -/
theorem CES_spec (db : DB) (roomName name email : String)
    (hpw : db.subs.Pairwise SubKeyNe) :
    GetMeetingByRoom (CreateEmailSubscription db roomName name email).2 roomName =
        some (getOrCreateMeeting db roomName).1 ∧
      (∃ r : SubRow,
        ((CreateEmailSubscription db roomName name email).2).subs.filter
            (subMatch (getOrCreateMeeting db roomName).1.id email) = [r] ∧
          r.participant_name = name ∧
          r.meeting_id = (getOrCreateMeeting db roomName).1.id ∧ r.email = email) ∧
      ((CreateEmailSubscription db roomName name email).2).subs.Pairwise SubKeyNe := by
  have hsubs := getOrCreate_subs db roomName
  have hfound := getOrCreate_found db roomName
  unfold CreateEmailSubscription
  by_cases hany : (getOrCreateMeeting db roomName).2.subs.any
      (subMatch (getOrCreateMeeting db roomName).1.id email) = true
  · -- conflict branch: the existing row's display name is updated
    rw [if_pos hany]
    simp only []
    have hpres : ∀ s, subMatch (getOrCreateMeeting db roomName).1.id email
        ((fun s => if subMatch (getOrCreateMeeting db roomName).1.id email s then
          { s with participant_name := name } else s) s) =
        subMatch (getOrCreateMeeting db roomName).1.id email s := by
      intro s
      by_cases hs : subMatch (getOrCreateMeeting db roomName).1.id email s = true
      · simp only [hs, if_true]
        simpa [subMatch] using hs
      · simp only [Bool.not_eq_true] at hs
        simp [hs]
    refine ⟨hfound, ?_, ?_⟩
    · rw [filter_map_of_pred_preserved _ _ _ hpres]
      rw [hsubs] at hany ⊢
      have hle := filter_length_le_one_of_pairwise db.subs
        (subMatch (getOrCreateMeeting db roomName).1.id email) SubKeyNe hpw
        (by
          intro a b hpa hpb hR
          simp only [subMatch, Bool.and_eq_true, beq_iff_eq] at hpa hpb
          exact hR ⟨hpa.1.trans hpb.1.symm, hpa.2.trans hpb.2.symm⟩)
      obtain ⟨a, hfa, hpa⟩ := eq_singleton_of_filter db.subs _ hle hany
      refine ⟨{ a with participant_name := name }, ?_, rfl, ?_, ?_⟩
      · rw [hfa]
        simp [hpa]
      · simp only [subMatch, Bool.and_eq_true, beq_iff_eq] at hpa
        exact hpa.1
      · simp only [subMatch, Bool.and_eq_true, beq_iff_eq] at hpa
        exact hpa.2
    · rw [hsubs, List.pairwise_map]
      refine hpw.imp ?_
      intro a b hab
      unfold SubKeyNe at hab ⊢
      intro hcon
      apply hab
      by_cases ha : subMatch (getOrCreateMeeting db roomName).1.id email a = true <;>
        by_cases hb : subMatch (getOrCreateMeeting db roomName).1.id email b = true <;>
          simp only [Bool.not_eq_true] at ha hb <;>
            simpa [ha, hb] using hcon
  · -- insert branch: a fresh row is appended
    rw [if_neg hany]
    simp only [Bool.not_eq_true] at hany
    have hnil : (getOrCreateMeeting db roomName).2.subs.filter
        (subMatch (getOrCreateMeeting db roomName).1.id email) = [] := by
      rw [List.filter_eq_nil_iff]
      intro b hb hpb
      have := List.any_eq_true.2 ⟨b, hb, hpb⟩
      rw [hany] at this
      exact Bool.false_ne_true this
    refine ⟨hfound, ?_, ?_⟩
    · refine ⟨⟨(getOrCreateMeeting db roomName).2.nextSubId,
        (getOrCreateMeeting db roomName).1.id, name, email⟩, ?_, rfl, rfl, rfl⟩
      rw [List.filter_append, hnil]
      simp [subMatch]
    · rw [List.pairwise_append]
      refine ⟨by rw [hsubs]; exact hpw, List.pairwise_singleton _ _, ?_⟩
      intro a ha b hb
      simp only [List.mem_singleton] at hb
      subst hb
      unfold SubKeyNe
      intro hcon
      have hpa : subMatch (getOrCreateMeeting db roomName).1.id email a = true := by
        simp only [subMatch, Bool.and_eq_true, beq_iff_eq]
        exact ⟨hcon.1, hcon.2⟩
      have := List.any_eq_true.2 ⟨a, ha, hpa⟩
      rw [hany] at this
      exact Bool.false_ne_true this

/-- Claim C8, theorem. For every (meeting, email) pair, subscribing twice with
two different display names (indeed with any two display names) leaves exactly
one subscription row for that pair, carrying the display name given by the
second (latest) call.  Holds for every database satisfying the
`UNIQUE(meeting_id, email)` constraint the schema enforces. -/
theorem C8_subscribe_twice_latest (db : DB) (roomName n1 n2 email : String)
    (hpw : db.subs.Pairwise SubKeyNe) :
    ∃ (m : MeetingRow) (r : SubRow),
      GetMeetingByRoom
          (CreateEmailSubscription (CreateEmailSubscription db roomName n1 email).2
            roomName n2 email).2 roomName = some m ∧
        ((CreateEmailSubscription (CreateEmailSubscription db roomName n1 email).2
            roomName n2 email).2).subs.filter (subMatch m.id email) = [r] ∧
        r.participant_name = n2 ∧ r.meeting_id = m.id ∧ r.email = email := by
  obtain ⟨-, -, hpw1⟩ := CES_spec db roomName n1 email hpw
  obtain ⟨hm2, ⟨r, hr, hrn, hrm, hre⟩, -⟩ :=
    CES_spec (CreateEmailSubscription db roomName n1 email).2 roomName n2 email hpw1
  exact ⟨_, r, hm2, hr, hrn, hrm, hre⟩

/-- Witness for C8 on the empty database. -/
theorem C8_subscribe_twice_latest_witness :
    ∃ (m : MeetingRow) (r : SubRow),
      GetMeetingByRoom
          (CreateEmailSubscription (CreateEmailSubscription emptyDB "falcon-summit" "Ann" "a@x.io").2
            "falcon-summit" "Annie" "a@x.io").2 "falcon-summit" = some m ∧
        ((CreateEmailSubscription (CreateEmailSubscription emptyDB "falcon-summit" "Ann" "a@x.io").2
            "falcon-summit" "Annie" "a@x.io").2).subs.filter (subMatch m.id "a@x.io") = [r] ∧
        r.participant_name = "Annie" ∧ r.meeting_id = m.id ∧ r.email = "a@x.io" :=
  C8_subscribe_twice_latest emptyDB "falcon-summit" "Ann" "Annie" "a@x.io"
    (by simp [emptyDB])

/-! ### main.go: email subscription handlers -/

/-- Response of `GET /api/meetings/:room/email-subscriptions`. -/
structure SubsResponse where
  status : Nat
  subscriptions : List SubRow
  count : Nat
  deriving DecidableEq

/-- `getEmailSubscriptionsHandler` (main.go): on any error from
`GetEmailSubscriptionsByRoom` it answers 200 with an empty list and count 0;
otherwise 200 with the rows and their count. -/
def getEmailSubscriptionsHandler (db : DB) (room : String) : SubsResponse :=
  match GetEmailSubscriptionsByRoom db room with
  | none => ⟨200, [], 0⟩
  | some subs => ⟨200, subs, subs.length⟩

/-- Claim C10, theorem. For every room name with no meeting record, the
list-email-subscriptions endpoint returns a 200 success response with an
empty subscriptions list and count 0 — never an error or NotFound result. -/
theorem C10_subs_of_unknown_room (db : DB) (room : String)
    (h : GetMeetingByRoom db room = none) :
    getEmailSubscriptionsHandler db room = ⟨200, [], 0⟩ := by
  unfold getEmailSubscriptionsHandler GetEmailSubscriptionsByRoom
  rw [h]

/-- Witness for C10 on the empty database. -/
theorem C10_subs_of_unknown_room_witness :
    getEmailSubscriptionsHandler emptyDB "no-such-room" = ⟨200, [], 0⟩ :=
  C10_subs_of_unknown_room emptyDB "no-such-room" rfl

/-! ### main.go: transcript relay hub

The Go state is `transcriptWS : map[string]map[*websocket.Conn]bool` guarded
by `transcriptLock`.  A connection is modelled by its identity, whether its
socket is still open, and the list of messages its peer has received; the
registry is an association list from room name to connection list.
`conn.WriteMessage` on a closed socket fails; `broadcastToRoom` discards that
error and moves on to the next connection, and it returns no error itself. -/

structure Conn where
  cid : Nat
  isOpen : Bool
  inbox : List String
  deriving DecidableEq

/-- The in-memory subscriber registry (`transcriptWS`). -/
abbrev Hub : Type := List (String × List Conn)

/-- Go map indexing `transcriptWS[room]`: a missing key reads as the nil map,
over which the broadcast loop iterates zero times. -/
def hubConns (hub : Hub) (room : String) : List Conn :=
  match hub.find? (fun e => e.1 == room) with
  | none => []
  | some e => e.2

/-- One `conn.WriteMessage(websocket.TextMessage, msg)` call: delivery appends
to the peer's inbox when the socket is open; on a closed socket the write
fails and (since `broadcastToRoom` ignores the returned error) the connection
state is simply unchanged. -/
def writeMessage (c : Conn) (msg : String) : Conn :=
  if c.isOpen then { c with inbox := c.inbox ++ [msg] } else c

/-- `broadcastToRoom` (main.go): under the read lock, iterate over
`transcriptWS[room]` and write `msg` to each connection, ignoring write
errors.  The function has no error result. -/
def broadcastToRoom (hub : Hub) (room : String) (msg : String) : Hub :=
  hub.map (fun e =>
    if e.1 == room then (e.1, e.2.map (fun c => writeMessage c msg)) else e)

theorem hubConns_broadcast_self (hub : Hub) (room msg : String) :
    hubConns (broadcastToRoom hub room msg) room =
      (hubConns hub room).map (fun c => writeMessage c msg) := by
  induction hub with
  | nil => rfl
  | cons e rest ih =>
    by_cases h : e.1 == room
    · simp [broadcastToRoom, hubConns, List.find?, h]
    · simp only [Bool.not_eq_true] at h
      simpa [broadcastToRoom, hubConns, List.find?, h] using ih

theorem hubConns_broadcast_other (hub : Hub) (room msg r : String) (hr : r ≠ room) :
    hubConns (broadcastToRoom hub room msg) r = hubConns hub r := by
  induction hub with
  | nil => rfl
  | cons e rest ih =>
    by_cases h : e.1 == room
    · have hrm' : (e.1 == r) = false := by
        simp only [beq_iff_eq] at h
        simp only [h, beq_eq_false_iff_ne]
        exact Ne.symm hr
      have hrm : ((e.1, e.2.map (fun c => writeMessage c msg)).1 == r) = false := hrm'
      simpa [broadcastToRoom, hubConns, List.find?, h, hrm, hrm'] using ih
    · simp only [Bool.not_eq_true] at h
      by_cases h2 : e.1 == r
      · simp [broadcastToRoom, hubConns, List.find?, h, h2]
      · simp only [Bool.not_eq_true] at h2
        simpa [broadcastToRoom, hubConns, List.find?, h, h2] using ih

/-- Claim C2, theorem. Publishing an event to a room (1) leaves that room's
subscriber list equal to the element-wise `writeMessage` image of the old
list, so each connection's new state is a function of that connection alone —
a failed write to one closed socket neither prevents nor fails delivery to
any other subscriber; (2) every open subscriber's inbox is extended by
exactly the published message; (3) a closed subscriber is left unchanged;
and (4) publishing to a room with zero registered subscribers changes no
room's subscriber list at all, and the operation returns no error (it is a
total function into the new registry). -/
theorem C2_broadcast_spec (hub : Hub) (room msg : String) :
    hubConns (broadcastToRoom hub room msg) room =
        (hubConns hub room).map (fun c => writeMessage c msg) ∧
      (∀ c : Conn, c.isOpen = true → writeMessage c msg = { c with inbox := c.inbox ++ [msg] }) ∧
      (∀ c : Conn, c.isOpen = false → writeMessage c msg = c) ∧
      (hubConns hub room = [] →
        ∀ r, hubConns (broadcastToRoom hub room msg) r = hubConns hub r) := by
  refine ⟨hubConns_broadcast_self hub room msg, ?_, ?_, ?_⟩
  · intro c hc; simp [writeMessage, hc]
  · intro c hc; simp [writeMessage, hc]
  · intro hzero r
    by_cases hr : r = room
    · subst hr
      rw [hubConns_broadcast_self hub r msg, hzero]
      rfl
    · exact hubConns_broadcast_other hub room msg r hr

/-- Witness for C2 at concrete registries: one room with an open and a closed
subscriber, and one empty room. -/
theorem C2_broadcast_spec_witness :
    writeMessage ⟨1, true, []⟩ "ev" = ⟨1, true, ["ev"]⟩ ∧
      writeMessage ⟨2, false, []⟩ "ev" = ⟨2, false, []⟩ ∧
      hubConns (broadcastToRoom [("quiet-room", [])] "quiet-room" "ev") "quiet-room" =
        hubConns [("quiet-room", [])] "quiet-room" := by
  obtain ⟨-, h2, h3, h4⟩ := C2_broadcast_spec [("quiet-room", [])] "quiet-room" "ev"
  exact ⟨h2 ⟨1, true, []⟩ rfl, h3 ⟨2, false, []⟩ rfl, h4 rfl "quiet-room"⟩

/-! ### main.go: starting a scheduled meeting -/

/-- A room as returned by the LiveKit room service `CreateRoom` call. -/
structure LKRoom where
  name : String
  sid : String
  deriving DecidableEq

/-- Responses of `POST /api/scheduled-meetings/:id/start`. -/
inductive StartResp where
  | notFound
  | forbidden
  | upstreamError
  | active (roomName roomId : String)
  deriving DecidableEq

/-- Modelled from the spec: `UpdateScheduledMeetingStatus` is called by
`startScheduledMeetingHandler` but its definition is not under `src/`.  Per
the spec (§4.2 `start` "transitions to `active`"; §3 status is a field of
the ScheduledMeeting row) it sets the status column of the scheduled-meeting
row with the given id. -/
def UpdateScheduledMeetingStatus (db : DB) (id : Int) (status : String) : DB :=
  { db with
    scheduled := db.scheduled.map (fun s =>
      if s.id == id then { s with status := status } else s) }

/-- `startScheduledMeetingHandler` (main.go): look up
`SELECT room_name, host_user_id FROM scheduled_meetings WHERE id = ? AND
status = 'scheduled'` (404 on a miss), 403 when the row's host is not the
caller, then call the LiveKit room service (500 on failure — the `roomSvc`
argument is the outcome of that external call), and only then update the
status to `active` and answer 200. -/
def startScheduledMeetingHandler (db : DB) (id hostUserID : Int)
    (roomSvc : Option LKRoom) : StartResp × DB :=
  match db.scheduled.find? (fun s => s.id == id && s.status == "scheduled") with
  | none => (StartResp.notFound, db)
  | some row =>
    if row.host_user_id != hostUserID then (StartResp.forbidden, db)
    else
      match roomSvc with
      | none => (StartResp.upstreamError, db)
      | some room =>
        (StartResp.active room.name room.sid, UpdateScheduledMeetingStatus db id "active")

/-- Claim C5, theorem. Starting a scheduled meeting (1) answers the
403 AuthorizationError when the caller is not the owning host of the meeting
found in `scheduled` state; (2) answers the 404 NotFoundError when no meeting
with that id is in `scheduled` state; (3) leaves the database unchanged
whenever the response is not the success response — in particular no status
transition happens on any error; and (4) on success (row owned by the caller,
room service succeeds) answers 200 active and transitions exactly the
meeting's status to `active`. -/
theorem C5_start_scheduled_spec (db : DB) (id hostUserID : Int)
    (roomSvc : Option LKRoom) :
    (∀ row, db.scheduled.find? (fun s => s.id == id && s.status == "scheduled") = some row →
      row.host_user_id ≠ hostUserID →
      startScheduledMeetingHandler db id hostUserID roomSvc = (StartResp.forbidden, db)) ∧
    (db.scheduled.find? (fun s => s.id == id && s.status == "scheduled") = none →
      startScheduledMeetingHandler db id hostUserID roomSvc = (StartResp.notFound, db)) ∧
    (∀ resp db', startScheduledMeetingHandler db id hostUserID roomSvc = (resp, db') →
      (∀ rn ri, resp ≠ StartResp.active rn ri) → db' = db) ∧
    (∀ row room,
      db.scheduled.find? (fun s => s.id == id && s.status == "scheduled") = some row →
      row.host_user_id = hostUserID → roomSvc = some room →
      startScheduledMeetingHandler db id hostUserID roomSvc =
        (StartResp.active room.name room.sid, UpdateScheduledMeetingStatus db id "active")) := by
  refine ⟨?_, ?_, ?_, ?_⟩
  · intro row hrow hne
    unfold startScheduledMeetingHandler
    rw [hrow]
    simp only [bne_iff_ne, ne_eq, hne, not_false_eq_true, if_true]
  · intro hnone
    unfold startScheduledMeetingHandler
    rw [hnone]
  · intro resp db' heq hnact
    unfold startScheduledMeetingHandler at heq
    cases hrow : db.scheduled.find? (fun s => s.id == id && s.status == "scheduled") with
    | none =>
      rw [hrow] at heq
      injection heq with h1 h2
      exact h2.symm
    | some row =>
      rw [hrow] at heq
      by_cases hh : row.host_user_id = hostUserID
      · simp only [hh, bne_self_eq_false, Bool.false_eq_true, if_false] at heq
        cases roomSvc with
        | none =>
          simp only [Prod.mk.injEq] at heq
          exact heq.2.symm
        | some room =>
          simp only [Prod.mk.injEq] at heq
          exact absurd heq.1.symm (hnact room.name room.sid)
      · have : (row.host_user_id != hostUserID) = true := bne_iff_ne.2 hh
        simp only [this, if_true, Prod.mk.injEq] at heq
        exact heq.2.symm
  · intro row room hrow hh hsvc
    unfold startScheduledMeetingHandler
    rw [hrow, hsvc]
    simp only [hh, bne_self_eq_false, Bool.false_eq_true, if_false]

/-- Witness for C5: a one-row schedule exercising the 403, 404 and success
branches of the theorem at concrete inputs. -/
theorem C5_start_scheduled_spec_witness :
    startScheduledMeetingHandler
        { emptyDB with scheduled := [⟨9, "falcon-summit", 1, "Acme", "c@x.io", 100, "scheduled"⟩] }
        9 2 (some ⟨"falcon-summit", "RM_1"⟩) =
      (StartResp.forbidden,
        { emptyDB with scheduled := [⟨9, "falcon-summit", 1, "Acme", "c@x.io", 100, "scheduled"⟩] }) ∧
    startScheduledMeetingHandler emptyDB 9 1 (some ⟨"falcon-summit", "RM_1"⟩) =
      (StartResp.notFound, emptyDB) ∧
    startScheduledMeetingHandler
        { emptyDB with scheduled := [⟨9, "falcon-summit", 1, "Acme", "c@x.io", 100, "scheduled"⟩] }
        9 1 (some ⟨"falcon-summit", "RM_1"⟩) =
      (StartResp.active "falcon-summit" "RM_1",
        UpdateScheduledMeetingStatus
          { emptyDB with scheduled := [⟨9, "falcon-summit", 1, "Acme", "c@x.io", 100, "scheduled"⟩] }
          9 "active") := by
  refine ⟨?_, ?_, ?_⟩
  · exact (C5_start_scheduled_spec _ 9 2 _).1
      ⟨9, "falcon-summit", 1, "Acme", "c@x.io", 100, "scheduled"⟩ (by decide) (by decide)
  · exact (C5_start_scheduled_spec emptyDB 9 1 _).2.1 rfl
  · exact (C5_start_scheduled_spec _ 9 1 _).2.2.2
      ⟨9, "falcon-summit", 1, "Acme", "c@x.io", 100, "scheduled"⟩ _ (by decide) rfl rfl

/-! ### auth.go: login -/

/-- The claim set of the bespoke signed session token (auth.go `JWTClaims`).
The base64url/HMAC serialization of `generateJWT` is standard-library crypto
the spec scopes out; the credential is modelled by its claim set. -/
structure JWTClaims where
  user_id : Int
  email : String
  name : String
  exp : Nat
  deriving DecidableEq

/-- `generateJWT` (auth.go): claims carry the user's id, email, name and a
24-hour expiry from the current time. -/
def generateJWT (user : UserRow) (now : Nat) : JWTClaims :=
  ⟨user.id, user.email, user.name, now + 24 * 60 * 60⟩

/-- Responses of `POST /api/auth/login` (auth.go `loginHandler`). -/
inductive LoginResp where
  | badRequest (msg : String)
  | authError (msg : String)
  | serverError (msg : String)
  | ok (token : JWTClaims) (id : Int) (email name : String)
  deriving DecidableEq

/-- The `SELECT … FROM users WHERE email = ?` lookup. -/
def findUserByEmail (db : DB) (email : String) : Option UserRow :=
  db.users.find? (fun u => u.email == email)

/-- `loginHandler` (auth.go): look the user up by email (401 `Invalid
credentials` on a miss), check the password against the stored bcrypt hash
(401 `Invalid credentials` on mismatch; `bcryptOK` stands for
`bcrypt.CompareHashAndPassword` succeeding), then issue the session token
and answer 200 with token and user fields. -/
def loginHandler (db : DB) (email password : String)
    (bcryptOK : String → String → Bool) (now : Nat) : LoginResp :=
  match findUserByEmail db email with
  | none => LoginResp.authError "Invalid credentials"
  | some user =>
    if !(bcryptOK user.password_hash password) then
      LoginResp.authError "Invalid credentials"
    else
      LoginResp.ok (generateJWT user now) user.id user.email user.name

/-- Claim C6, theorem. Login-failure indistinguishability: a login with an
email belonging to no user and a login with a known email but a wrong
password produce the exact same 401 response (`Invalid credentials`, with
no hint of which field was wrong), and in both runs no session credential
is issued (the result is never the success constructor carrying a token). -/
theorem C6_login_failure_indistinguishable (db : DB)
    (email1 password1 email2 password2 : String)
    (bcryptOK : String → String → Bool) (now : Nat)
    (h1 : findUserByEmail db email1 = none)
    (h2 : ∃ u, findUserByEmail db email2 = some u ∧
      bcryptOK u.password_hash password2 = false) :
    loginHandler db email1 password1 bcryptOK now =
        loginHandler db email2 password2 bcryptOK now ∧
      loginHandler db email1 password1 bcryptOK now =
        LoginResp.authError "Invalid credentials" ∧
      (∀ t i e n, loginHandler db email1 password1 bcryptOK now ≠ LoginResp.ok t i e n) ∧
      (∀ t i e n, loginHandler db email2 password2 bcryptOK now ≠ LoginResp.ok t i e n) := by
  obtain ⟨u, hu, hpw⟩ := h2
  have e1 : loginHandler db email1 password1 bcryptOK now =
      LoginResp.authError "Invalid credentials" := by
    unfold loginHandler
    rw [h1]
  have e2 : loginHandler db email2 password2 bcryptOK now =
      LoginResp.authError "Invalid credentials" := by
    unfold loginHandler
    rw [hu]
    simp [hpw]
  refine ⟨e1.trans e2.symm, e1, ?_, ?_⟩
  · intro t i e n
    rw [e1]
    exact fun h => LoginResp.noConfusion h
  · intro t i e n
    rw [e2]
    exact fun h => LoginResp.noConfusion h

/-- Witness for C6: a one-user table, an unknown email and a wrong password,
with bcrypt comparison instantiated to plain equality of hash and password. -/
theorem C6_login_failure_indistinguishable_witness :
    loginHandler { emptyDB with users := [⟨1, "justin@nevinstech.com", "H", "Justin"⟩] }
        "nobody@x.io" "pw" (fun h p => h == p) 0 =
      loginHandler { emptyDB with users := [⟨1, "justin@nevinstech.com", "H", "Justin"⟩] }
        "justin@nevinstech.com" "wrong" (fun h p => h == p) 0 :=
  (C6_login_failure_indistinguishable
    { emptyDB with users := [⟨1, "justin@nevinstech.com", "H", "Justin"⟩] }
    "nobody@x.io" "pw" "justin@nevinstech.com" "wrong" (fun h p => h == p) 0
    (by decide)
    ⟨⟨1, "justin@nevinstech.com", "H", "Justin"⟩, by decide, by decide⟩).1

/-! ### email.go: notification workflow, and main.go: saveNotesHandler -/

/-- Outcome of a Go function returning `error`. -/
inductive GoResult where
  | ok
  | err (msg : String)
  deriving DecidableEq

/-- `TriggerEmailWorkflow` (email.go): nil when the webhook URL is not
configured, nil when the subscription lookup errors or finds no recipients,
then posts the payload to the webhook — a transport failure (`postOK =
false`, the outcome of `http.Post`) is the only returned error; a non-2xx
webhook status is merely logged and still returns nil. -/
def TriggerEmailWorkflow (db : DB) (webhookURL : Option String) (postOK : Bool)
    (roomName : String) : GoResult :=
  match webhookURL with
  | none => GoResult.ok
  | some _ =>
    match GetEmailSubscriptionsByRoom db roomName with
    | none => GoResult.ok
    | some subs =>
      if subs.length == 0 then GoResult.ok
      else if postOK then GoResult.ok else GoResult.err "post failed"

/-- Responses of `POST /api/meetings/:room/notes`. -/
inductive SaveNotesResp where
  | badRequest
  | serverError (msg : String)
  | saved (id : Int)
  deriving DecidableEq

/-- `saveNotesHandler` (main.go): persist via `SaveNotes`, then fire
`go TriggerEmailWorkflow(room, req.Markdown)` in the background — its result
is discarded — and answer `{"status": "saved", "id": notes.ID}`.  The third
component records the outcome of the background task, which the response and
database do not depend on. -/
def saveNotesHandler (db : DB) (room markdown model : String)
    (inputTokens outputTokens : Int) (webhookURL : Option String) (postOK : Bool) :
    SaveNotesResp × DB × GoResult :=
  let p := SaveNotes db room markdown model inputTokens outputTokens
  (SaveNotesResp.saved p.1.id, p.2, TriggerEmailWorkflow p.2 webhookURL postOK room)

/-- Claim C7, theorem. When the persistence step of `saveNotes` succeeds (in
the model the pure store always does), the handler answers the saved-success
response with the new row id, for every outcome of the background email
workflow; the response and the resulting database are identical across a run
where the webhook post succeeds and a run where it fails (or the webhook is
not even configured), so a notification-delivery failure never changes the
result of the save. -/
theorem C7_saveNotes_ignores_email_outcome (db : DB) (room markdown model : String)
    (inputTokens outputTokens : Int) (url1 url2 : Option String) (post1 post2 : Bool) :
    (saveNotesHandler db room markdown model inputTokens outputTokens url1 post1).1 =
        SaveNotesResp.saved
          (SaveNotes db room markdown model inputTokens outputTokens).1.id ∧
      (saveNotesHandler db room markdown model inputTokens outputTokens url1 post1).1 =
        (saveNotesHandler db room markdown model inputTokens outputTokens url2 post2).1 ∧
      (saveNotesHandler db room markdown model inputTokens outputTokens url1 post1).2.1 =
        (saveNotesHandler db room markdown model inputTokens outputTokens url2 post2).2.1 :=
  ⟨rfl, rfl, rfl⟩

/-! ### Decimal printing

`fmt.Sprintf("%s-%d", …)` prints the random draw in decimal; on the Lean
side that is `Nat.repr`.  The following development proves `Nat.repr`
injective by exhibiting the decimal decoder as a left inverse. -/

/-- Numeric value of a decimal digit character. -/
def digitVal (c : Char) : Nat := c.toNat - Char.toNat '0'

/-- Value of a most-significant-first decimal digit string. -/
def decodeDec (l : List Char) : Nat :=
  l.foldl (fun a c => 10 * a + digitVal c) 0

theorem toDigitsCore_shift (fuel : Nat) : ∀ (n : Nat) (ds : List Char),
    Nat.toDigitsCore 10 fuel n ds = Nat.toDigitsCore 10 fuel n [] ++ ds := by
  induction fuel with
  | zero => intro n ds; rfl
  | succ f ih =>
    intro n ds
    simp only [Nat.toDigitsCore]
    by_cases h : n / 10 = 0
    · simp [h]
    · simp only [h, if_false]
      rw [ih (n / 10) (Nat.digitChar (n % 10) :: ds), ih (n / 10) [Nat.digitChar (n % 10)]]
      simp

theorem decodeDec_append_singleton (l : List Char) (c : Char) :
    decodeDec (l ++ [c]) = 10 * decodeDec l + digitVal c := by
  simp [decodeDec, List.foldl_append]

theorem digitVal_digitChar : ∀ m, m < 10 → digitVal (Nat.digitChar m) = m := by decide

theorem decodeDec_toDigitsCore (fuel : Nat) : ∀ n : Nat, n < 10 ^ fuel →
    decodeDec (Nat.toDigitsCore 10 fuel n []) = n := by
  induction fuel with
  | zero =>
    intro n h
    simp only [pow_zero, Nat.lt_one_iff] at h
    subst h
    rfl
  | succ f ih =>
    intro n h
    simp only [Nat.toDigitsCore]
    by_cases hdiv : n / 10 = 0
    · have hn : n < 10 := by omega
      simp only [hdiv, if_true]
      have hmod : n % 10 = n := Nat.mod_eq_of_lt hn
      simp [decodeDec, hmod, digitVal_digitChar n hn]
    · simp only [hdiv, if_false]
      rw [toDigitsCore_shift, decodeDec_append_singleton]
      have hlt : n / 10 < 10 ^ f := by
        rw [Nat.div_lt_iff_lt_mul (by norm_num : 0 < 10)]
        calc n < 10 ^ (f + 1) := h
          _ = 10 ^ f * 10 := by ring
      rw [ih _ hlt, digitVal_digitChar _ (Nat.mod_lt n (by norm_num))]
      omega

theorem decodeDec_toDigits (n : Nat) : decodeDec (Nat.toDigits 10 n) = n := by
  unfold Nat.toDigits
  refine decodeDec_toDigitsCore (n + 1) n ?_
  calc n < 10 ^ n := Nat.lt_pow_self (by norm_num) n
    _ ≤ 10 ^ (n + 1) := Nat.pow_le_pow_right (by norm_num) (Nat.le_succ n)

theorem string_data_inj {s t : String} (h : s.data = t.data) : s = t := by
  cases s
  cases t
  exact congrArg String.mk (by simpa using h)

theorem Nat_repr_inj {m n : Nat} (h : Nat.repr m = Nat.repr n) : m = n := by
  have hlist : Nat.toDigits 10 m = Nat.toDigits 10 n := by
    have hd := congrArg String.data h
    simpa [Nat.repr, List.asString] using hd
  have hdec := congrArg decodeDec hlist
  rwa [decodeDec_toDigits, decodeDec_toDigits] at hdec

/-! ### main.go: token issuance -/

/-- The LiveKit `auth.VideoGrant` fields the handler sets. -/
structure VideoGrant where
  roomJoin : Bool
  room : String
  deriving DecidableEq

/-- The access token built by `getToken`: identity, display name, the grant,
and the 24-hour validity; the JWT signing by the LiveKit SDK is
standard-library crypto the spec scopes out. -/
structure AccessToken where
  identity : String
  name : String
  grant : VideoGrant
  validForHours : Nat
  deriving DecidableEq

/-- `getToken` (main.go): the participant identity is
`fmt.Sprintf("%s-%d", req.ParticipantName, rand.Intn(100000))` — the display
name plus a random decimal suffix drawn from `[0, 100000)` (the `r`
argument); the grant is join permission scoped to exactly the requested
room, valid for 24 hours. -/
def getToken (roomName participantName : String) (r : Fin 100000) : AccessToken :=
  { identity := participantName ++ "-" ++ Nat.repr r.val
    name := participantName
    grant := { roomJoin := true, room := roomName }
    validForHours := 24 }

/-- A token is a valid join credential for a room when its grant carries join
permission for exactly that room. -/
def validJoinFor (t : AccessToken) (roomName : String) : Bool :=
  t.grant.roomJoin && (t.grant.room == roomName)

/-- Claim C4, counterexample. It is not true that every two invocations of
`getToken` with the same display name yield distinct participant identities:
when the two random draws coincide (here both 5, for display name `alice` in
room `falcon-summit`) the identities are equal — the code never checks the
suffix for uniqueness. -/
theorem C4_distinct_identity_cex :
    ¬ (∀ r1 r2 : Fin 100000,
        (getToken "falcon-summit" "alice" r1).identity ≠
          (getToken "falcon-summit" "alice" r2).identity) := by
  intro h
  exact h ⟨5, by norm_num⟩ ⟨5, by norm_num⟩ rfl

/-- Claim C4, amended theorem. Two invocations of `getToken` with the same
display name yield distinct participant identities whenever the two random
draws differ (which the code leaves to chance rather than enforcing), and
each resulting token is a valid join credential for the requested room
regardless of the draw. -/
theorem C4_distinct_identity_when_draws_differ (roomName participantName : String)
    (r1 r2 : Fin 100000) (h : r1 ≠ r2) :
    (getToken roomName participantName r1).identity ≠
        (getToken roomName participantName r2).identity ∧
      validJoinFor (getToken roomName participantName r1) roomName = true ∧
      validJoinFor (getToken roomName participantName r2) roomName = true := by
  refine ⟨?_, by simp [getToken, validJoinFor], by simp [getToken, validJoinFor]⟩
  intro heq
  apply h
  simp only [getToken] at heq
  have hdata := congrArg String.data heq
  simp only [String.data_append] at hdata
  have hrepr : Nat.repr r1.val = Nat.repr r2.val := by
    apply string_data_inj
    simpa using hdata
  exact Fin.ext (Nat_repr_inj hrepr)

/-- Witness for the amended C4 theorem at two concrete distinct draws. -/
theorem C4_distinct_identity_witness :
    (getToken "falcon-summit" "alice" ⟨41, by norm_num⟩).identity ≠
        (getToken "falcon-summit" "alice" ⟨42, by norm_num⟩).identity ∧
      validJoinFor (getToken "falcon-summit" "alice" ⟨41, by norm_num⟩)
          "falcon-summit" = true ∧
      validJoinFor (getToken "falcon-summit" "alice" ⟨42, by norm_num⟩)
          "falcon-summit" = true :=
  C4_distinct_identity_when_draws_differ "falcon-summit" "alice"
    ⟨41, by norm_num⟩ ⟨42, by norm_num⟩ (by decide)

/-! ### main.go: transcript ingestion

`receiveTranscriptHandler` decodes the posted body into a
`TranscriptMessage` (fiber `BodyParser`, a standard JSON unmarshal — its
outcome is the handler's `Option` argument) and then rebuilds the broadcast
bytes by raw string concatenation:
`{"speaker":"` + Speaker + `","text":"` + Text + `","is_final":` + … .
To judge the claim that those bytes are a valid JSON object carrying the
received field values, a JSON-object parser for objects with string and
boolean members follows.  The parser is deliberately lenient (arbitrary
whitespace between tokens, any character after a backslash accepted as an
escape, `\u` sequences consumed with a placeholder), so an input it rejects
is rejected by every JSON parser. -/

/-- Incoming transcript message (main.go `TranscriptMessage`). -/
structure TranscriptMessage where
  room_name : String
  speaker : String
  text : String
  is_final : Bool
  timestamp : String
  deriving DecidableEq

/-- `boolToString` (main.go). -/
def boolToString (b : Bool) : String := if b then "true" else "false"

/-- The broadcast payload built by `receiveTranscriptHandler` — verbatim the
Go concatenation, with no escaping of the interpolated field values. -/
def buildTranscriptJson (msg : TranscriptMessage) : String :=
  "\x7b\"speaker\":\"" ++ msg.speaker ++ "\",\"text\":\"" ++ msg.text ++
    "\",\"is_final\":" ++ boolToString msg.is_final ++ ",\"timestamp\":\"" ++
    msg.timestamp ++ "\"\x7d"

/-- Responses of `POST /api/internal/transcript`. -/
inductive ReceiveResp where
  | badRequest
  | broadcastOK
  deriving DecidableEq

/-- `receiveTranscriptHandler` (main.go): a body that does not unmarshal is
answered 400 and nothing is broadcast; otherwise the rebuilt bytes are
broadcast to the room's subscribers and the handler answers
`{"status": "broadcast"}`. -/
def receiveTranscriptHandler (body : Option TranscriptMessage) (hub : Hub) :
    ReceiveResp × Hub :=
  match body with
  | none => (ReceiveResp.badRequest, hub)
  | some msg =>
    (ReceiveResp.broadcastOK, broadcastToRoom hub msg.room_name (buildTranscriptJson msg))

/-! #### A lenient JSON-object parser -/

def lbrace : Char := Char.ofNat 123

def rbrace : Char := Char.ofNat 125

def isWs (c : Char) : Bool := c = ' ' || c = '\n' || c = '\t' || c = '\r'

def skipWs (l : List Char) : List Char := l.dropWhile isWs

def unescapeChar (c : Char) : Char :=
  if c = 'n' then '\n'
  else if c = 't' then '\t'
  else if c = 'r' then '\r'
  else if c = 'b' then Char.ofNat 8
  else if c = 'f' then Char.ofNat 12
  else c

/-- Parse the body of a JSON string (the opening quote already consumed) up
to and including the closing quote, returning content and remainder.  Fueled
by the input length; every step consumes at least one character. -/
def parseJStringBody : Nat → List Char → Option (List Char × List Char)
  | 0, _ => none
  | _ + 1, [] => none
  | fuel + 1, c :: cs =>
    if c = '"' then some ([], cs)
    else if c = '\\' then
      match cs with
      | [] => none
      | 'u' :: _ :: _ :: _ :: _ :: cs2 =>
        match parseJStringBody fuel cs2 with
        | none => none
        | some (content, rest) => some ('?' :: content, rest)
      | e :: cs2 =>
        match parseJStringBody fuel cs2 with
        | none => none
        | some (content, rest) => some (unescapeChar e :: content, rest)
    else
      match parseJStringBody fuel cs with
      | none => none
      | some (content, rest) => some (c :: content, rest)

/-- A JSON member value of the shapes the transcript event uses. -/
inductive JValue where
  | jstr (s : String)
  | jbool (b : Bool)
  deriving DecidableEq

def parseJValue (l : List Char) : Option (JValue × List Char) :=
  match skipWs l with
  | '"' :: cs =>
    match parseJStringBody (cs.length + 1) cs with
    | none => none
    | some (content, rest) => some (JValue.jstr (String.mk content), rest)
  | 't' :: 'r' :: 'u' :: 'e' :: cs => some (JValue.jbool true, cs)
  | 'f' :: 'a' :: 'l' :: 's' :: 'e' :: cs => some (JValue.jbool false, cs)
  | _ => none

/-- Parse one or more `"key": value` members followed by `,` (continue) or
the closing brace (stop). -/
def parseMembers : Nat → List Char → Option (List (String × JValue) × List Char)
  | 0, _ => none
  | fuel + 1, l =>
    match skipWs l with
    | '"' :: cs =>
      match parseJStringBody (cs.length + 1) cs with
      | none => none
      | some (key, rest) =>
        match skipWs rest with
        | ':' :: rest2 =>
          match parseJValue rest2 with
          | none => none
          | some (v, rest3) =>
            match skipWs rest3 with
            | [] => none
            | c :: rest4 =>
              if c = ',' then
                match parseMembers fuel rest4 with
                | none => none
                | some (ms, rest5) => some ((String.mk key, v) :: ms, rest5)
              else if c = rbrace then some ([(String.mk key, v)], rest4)
              else none
        | _ => none
    | _ => none

/-- Parse a complete JSON object (with string/boolean members) spanning the
whole input. -/
def parseJObject (l : List Char) : Option (List (String × JValue)) :=
  match skipWs l with
  | [] => none
  | c :: cs =>
    if c = lbrace then
      match skipWs cs with
      | [] => none
      | c2 :: cs2 =>
        if c2 = rbrace then
          if (skipWs cs2).isEmpty then some [] else none
        else
          match parseMembers (cs.length + 1) (c2 :: cs2) with
          | none => none
          | some (ms, rest) => if (skipWs rest).isEmpty then some ms else none
    else none

def lookupField (ms : List (String × JValue)) (k : String) : Option JValue :=
  match ms.find? (fun m => m.1 == k) with
  | none => none
  | some m => some m.2

/-- Read a broadcast payload back as a transcript event: a valid JSON object
whose `speaker`, `text`, `timestamp` members are strings and whose
`is_final` member is a boolean. -/
def parseTranscriptEvent (s : String) : Option (String × String × Bool × String) :=
  match parseJObject s.data with
  | none => none
  | some ms =>
    match lookupField ms "speaker", lookupField ms "text",
        lookupField ms "is_final", lookupField ms "timestamp" with
    | some (JValue.jstr sp), some (JValue.jstr tx), some (JValue.jbool fi),
        some (JValue.jstr ts) => some (sp, tx, fi, ts)
    | _, _, _, _ => none

/-- Claim C9, theorem (bug evaluation).  At the failing input — a
structurally well-formed transcript message whose text contains a quote,
`say "hi"` — the bytes the handler broadcasts are not a valid JSON object
carrying the received fields (the unescaped quote terminates the `text`
member early and the remainder parses under no JSON grammar), yet the
handler accepts the message and does broadcast those broken bytes to the
room's subscribers.  For contrast, the same pipeline on a quote-free text
round-trips all four fields, and a structurally malformed submission is
rejected with a 400 and nothing is broadcast. -/
theorem C9_broadcast_json_broken :
    parseTranscriptEvent (buildTranscriptJson
        ⟨"falcon-summit", "alice", "say \"hi\"", true, "2026-01-01T00:00:00Z"⟩) = none ∧
      receiveTranscriptHandler
          (some ⟨"falcon-summit", "alice", "say \"hi\"", true, "2026-01-01T00:00:00Z"⟩)
          [("falcon-summit", [⟨1, true, []⟩])] =
        (ReceiveResp.broadcastOK,
          [("falcon-summit", [⟨1, true,
            [buildTranscriptJson ⟨"falcon-summit", "alice", "say \"hi\"", true,
              "2026-01-01T00:00:00Z"⟩]⟩])]) ∧
      parseTranscriptEvent (buildTranscriptJson
          ⟨"falcon-summit", "alice", "say hi", true, "2026-01-01T00:00:00Z"⟩) =
        some ("alice", "say hi", true, "2026-01-01T00:00:00Z") ∧
      receiveTranscriptHandler none [("falcon-summit", [⟨1, true, []⟩])] =
        (ReceiveResp.badRequest, [("falcon-summit", [⟨1, true, []⟩])]) := by
  refine ⟨?_, ?_, ?_, ?_⟩ <;> decide

end Boom
